import Mathlib

/-
  Verification of the Simplistic-Tetris core engine.

  A shallow embedding of the game simulation engine: piece catalog
  (src/core/Tetromino.ts), board (src/core/Board.ts), collision resolver
  (src/core/CollisionDetector.ts), scoring (src/core/ScoringSystem.ts),
  mode policy (src/core/GameModes.ts), configuration
  (src/constants/config.ts) and the orchestrating GameEngine
  (src/core/GameEngine.ts).  TypeScript numbers that stay integral are
  modelled as Nat or Int; fractional quantities (elapsed seconds, score
  with 0.5-point soft-drop bonuses, score multipliers) as Rat.  The
  ambient sources of nondeterminism (Math.random draws and Date.now
  samples) are passed as explicit parameters.
-/

namespace Tetris

/-- The seven tetromino type tags, from the TetrominoType enum. -/
inductive TetrominoType where
  | I | J | L | O | S | T | Z
deriving DecidableEq, Repr

/-- Integer grid coordinates; y may be negative above the visible board. -/
structure Position where
  x : Int
  y : Int
deriving DecidableEq, Repr

/-- A rotation-state occupancy matrix (0 = empty, 1 = occupied). -/
abbrev TetrominoMatrix := List (List Nat)

/-- A board cell holds a color token; the board is a list of rows. -/
abbrev BoardGrid := List (List String)

/-- A piece instance, from the Tetromino type in types/index. -/
structure Tetromino where
  type : TetrominoType
  color : String
  shape : TetrominoMatrix
  rotation : Nat
  position : Position
deriving DecidableEq, Repr

/-! Configuration constants from src/constants/config.ts. -/

def BOARD_ROWS : Nat := 20
def BOARD_COLS : Nat := 10
def VACANT_COLOR : String := "black"

/-- TETROMINO_COLORS record, one hex color per type. -/
def TETROMINO_COLORS : TetrominoType → String
  | .I => "#00f0f0"
  | .J => "#f0a000"
  | .L => "#0000f0"
  | .O => "#f0f000"
  | .S => "#00f000"
  | .T => "#a000f0"
  | .Z => "#f00000"

/-- LEVEL_SPEEDS lookup table (level to drop interval in ms); keys 0..25. -/
def LEVEL_SPEEDS : Nat → Option Nat
  | 0 => some 750 | 1 => some 700 | 2 => some 650 | 3 => some 600
  | 4 => some 550 | 5 => some 500 | 6 => some 450 | 7 => some 400
  | 8 => some 350 | 9 => some 300 | 10 => some 250 | 11 => some 200
  | 12 => some 180 | 13 => some 165 | 14 => some 150 | 15 => some 140
  | 16 => some 130 | 17 => some 120 | 18 => some 115 | 19 => some 110
  | 20 => some 105 | 21 => some 100 | 22 => some 100 | 23 => some 100
  | 24 => some 100 | 25 => some 100
  | _ => none

def SCORE_BASE : Rat := 40

/-- SCORE_MULTIPLIERS object: keys 1..4 only, other lookups are undefined. -/
def SCORE_MULTIPLIERS : Nat → Option Rat
  | 1 => some 1
  | 2 => some (5/2)
  | 3 => some 5
  | 4 => some 8
  | _ => none

def LINES_PER_LEVEL : Nat := 4
def MAX_LEVEL : Nat := 25

/-- The two game modes. -/
inductive GameMode where
  | CLASSIC | ULTRA
deriving DecidableEq, Repr

/-- Per-mode configuration; the speedCurve field of the source record is
the LEVEL_SPEEDS table itself and is not read by the engine, so it is not
repeated here. -/
structure GameModeConfig where
  mode : GameMode
  timeLimit : Option Rat
  startLevel : Nat
deriving DecidableEq, Repr

def GAME_MODE_CONFIGS : GameMode → GameModeConfig
  | .CLASSIC => { mode := .CLASSIC, timeLimit := none, startLevel := 0 }
  | .ULTRA => { mode := .ULTRA, timeLimit := some 120, startLevel := 0 }

/-- Ultra mode time warnings in seconds remaining. -/
def TIME_WARNINGS : List Rat := [30, 10, 5]

/-- Initial piece spawn position. -/
def SPAWN_POSITION : Position := { x := 3, y := -2 }

/-! Piece catalog from src/core/Tetromino.ts. -/

def I_SHAPE : List TetrominoMatrix :=
  [ [[0,0,0,0],[1,1,1,1],[0,0,0,0],[0,0,0,0]],
    [[0,0,1,0],[0,0,1,0],[0,0,1,0],[0,0,1,0]],
    [[0,0,0,0],[0,0,0,0],[1,1,1,1],[0,0,0,0]],
    [[0,1,0,0],[0,1,0,0],[0,1,0,0],[0,1,0,0]] ]

def J_SHAPE : List TetrominoMatrix :=
  [ [[1,0,0],[1,1,1],[0,0,0]],
    [[0,1,1],[0,1,0],[0,1,0]],
    [[0,0,0],[1,1,1],[0,0,1]],
    [[0,1,0],[0,1,0],[1,1,0]] ]

def L_SHAPE : List TetrominoMatrix :=
  [ [[0,0,1],[1,1,1],[0,0,0]],
    [[0,1,0],[0,1,0],[0,1,1]],
    [[0,0,0],[1,1,1],[1,0,0]],
    [[1,1,0],[0,1,0],[0,1,0]] ]

def O_SHAPE : List TetrominoMatrix :=
  [ [[0,0,0,0],[0,1,1,0],[0,1,1,0],[0,0,0,0]] ]

def S_SHAPE : List TetrominoMatrix :=
  [ [[0,1,1],[1,1,0],[0,0,0]],
    [[0,1,0],[0,1,1],[0,0,1]],
    [[0,0,0],[0,1,1],[1,1,0]],
    [[1,0,0],[1,1,0],[0,1,0]] ]

def T_SHAPE : List TetrominoMatrix :=
  [ [[0,1,0],[1,1,1],[0,0,0]],
    [[0,1,0],[0,1,1],[0,1,0]],
    [[0,0,0],[1,1,1],[0,1,0]],
    [[0,1,0],[1,1,0],[0,1,0]] ]

def Z_SHAPE : List TetrominoMatrix :=
  [ [[1,1,0],[0,1,1],[0,0,0]],
    [[0,0,1],[0,1,1],[0,1,0]],
    [[0,0,0],[1,1,0],[0,1,1]],
    [[0,1,0],[1,1,0],[1,0,0]] ]

/-- A catalog record: shapes, color and name of one piece type. -/
structure TetrominoShape where
  shape : List TetrominoMatrix
  color : String
  name : TetrominoType
deriving DecidableEq, Repr

/-- TETROMINO_SHAPES record mapping each type to its catalog entry. -/
def TETROMINO_SHAPES : TetrominoType → TetrominoShape
  | .I => { shape := I_SHAPE, color := TETROMINO_COLORS .I, name := .I }
  | .J => { shape := J_SHAPE, color := TETROMINO_COLORS .J, name := .J }
  | .L => { shape := L_SHAPE, color := TETROMINO_COLORS .L, name := .L }
  | .O => { shape := O_SHAPE, color := TETROMINO_COLORS .O, name := .O }
  | .S => { shape := S_SHAPE, color := TETROMINO_COLORS .S, name := .S }
  | .T => { shape := T_SHAPE, color := TETROMINO_COLORS .T, name := .T }
  | .Z => { shape := Z_SHAPE, color := TETROMINO_COLORS .Z, name := .Z }

/-- createTetromino: builds a piece at rotation 0 with the catalog shape
and color.  The source throws when the catalog has no first shape; every
catalog list is nonempty, so that branch is unreachable and headD covers
it with an empty default. -/
def createTetromino (type : TetrominoType) (position : Option Position) : Tetromino :=
  let tetrominoShape := TETROMINO_SHAPES type
  let firstShape := tetrominoShape.shape.headD []
  { type := type
    color := tetrominoShape.color
    shape := firstShape
    rotation := 0
    position := position.getD SPAWN_POSITION }

/-- createRandomTetromino with the Math.random draw resolved to the given
type: the source picks a uniform random element of ALL_TETROMINO_TYPES
and delegates to createTetromino. -/
def createRandomTetromino (draw : TetrominoType) (position : Option Position) : Tetromino :=
  createTetromino draw position

/-- rotateTetromino: advance the rotation index cyclically and take the
matching catalog matrix; degenerate catalog cases return the piece
unchanged, exactly as the source early-returns. -/
def rotateTetromino (tetromino : Tetromino) : Tetromino :=
  let shapes := (TETROMINO_SHAPES tetromino.type).shape
  if shapes.length = 0 then tetromino
  else
    let newRotation := (tetromino.rotation + 1) % shapes.length
    match shapes.get? newRotation with
    | none => tetromino
    | some newShape =>
      if newShape.length = 0 then tetromino
      else { tetromino with rotation := newRotation, shape := newShape }

/-- moveTetromino: translate the position by the given deltas. -/
def moveTetromino (tetromino : Tetromino) (dx dy : Int) : Tetromino :=
  { tetromino with
    position := { x := tetromino.position.x + dx, y := tetromino.position.y + dy } }

/-- getTetrominoOccupiedCells: absolute board coordinates of every 1 entry
of the shape matrix, in row-major scan order. -/
def getTetrominoOccupiedCells (tetromino : Tetromino) : List Position :=
  (List.range tetromino.shape.length).flatMap (fun row =>
    match tetromino.shape.get? row with
    | none => []
    | some shapeRow =>
      (List.range shapeRow.length).filterMap (fun col =>
        if shapeRow.get? col = some 1 then
          some { x := tetromino.position.x + col, y := tetromino.position.y + row }
        else none))

/-! Board from src/core/Board.ts. -/

/-- createBoard: a BOARD_ROWS by BOARD_COLS grid of vacant cells. -/
def createBoard : BoardGrid :=
  List.replicate BOARD_ROWS (List.replicate BOARD_COLS VACANT_COLOR)

/-- isValidPosition: inside the visible board bounds. -/
def isValidPosition (position : Position) : Bool :=
  0 ≤ position.x && position.x < (BOARD_COLS : Int) &&
    0 ≤ position.y && position.y < (BOARD_ROWS : Int)

/-- isCellVacant: above-board rows are always vacant, out-of-bounds cells
never are, and otherwise the cell token is compared with the vacant
sentinel (a missing row or column entry compares unequal, as an undefined
lookup does in the source). -/
def isCellVacant (board : BoardGrid) (position : Position) : Bool :=
  if position.y < 0 then true
  else if ¬ isValidPosition position then false
  else
    match board.get? position.y.toNat with
    | none => false
    | some row => row.get? position.x.toNat == some VACANT_COLOR

/-- lockPiece: write the piece color into every in-bounds occupied cell of
a copy of the board; above-board cells are silently skipped. -/
def lockPiece (board : BoardGrid) (tetromino : Tetromino) : BoardGrid :=
  (getTetrominoOccupiedCells tetromino).foldl
    (fun b cell =>
      if isValidPosition cell then
        match b.get? cell.y.toNat with
        | some row => b.set cell.y.toNat (row.set cell.x.toNat tetromino.color)
        | none => b
      else b)
    board

/-- isPieceAboveBoard: some occupied cell lies above the visible board. -/
def isPieceAboveBoard (tetromino : Tetromino) : Bool :=
  (getTetrominoOccupiedCells tetromino).any (fun cell => cell.y < 0)

/-- One row is complete when no scanned column holds the vacant sentinel
(missing entries compare unequal to it, as in the source). -/
def isCompleteRow (row : List String) : Bool :=
  (List.range BOARD_COLS).all (fun col => !(row.get? col == some VACANT_COLOR))

/-- findCompleteLines: ascending indices of the complete rows; missing
rows are skipped as the source continue does. -/
def findCompleteLines (board : BoardGrid) : List Nat :=
  (List.range BOARD_ROWS).filter (fun row =>
    match board.get? row with
    | none => false
    | some boardRow => isCompleteRow boardRow)

/-- Insertion into a descending list, modelling the comparator that sorts
line indices in descending order. -/
def insertDesc (x : Nat) : List Nat → List Nat
  | [] => [x]
  | y :: ys => if y ≤ x then x :: y :: ys else y :: insertDesc x ys

/-- Descending sort of the line indices, as Array.sort with the
comparator b - a produces. -/
def sortDesc (l : List Nat) : List Nat :=
  l.foldr insertDesc []

/-- clearLines: for each sorted index, splice that row out and unshift a
fresh all-vacant row at the top, in source order (splice then unshift,
iterating the descending indices). -/
def clearLines (board : BoardGrid) (lineIndices : List Nat) : BoardGrid :=
  if lineIndices.length = 0 then board
  else
    (sortDesc lineIndices).foldl
      (fun b lineIndex =>
        List.replicate BOARD_COLS VACANT_COLOR :: b.eraseIdx lineIndex)
      board

/-- clearCompleteLines: find the complete rows, clear them, and report the
count. -/
def clearCompleteLines (board : BoardGrid) : BoardGrid × Nat :=
  let completeLines := findCompleteLines board
  let linesCleared := completeLines.length
  if linesCleared = 0 then (board, 0)
  else (clearLines board completeLines, linesCleared)

/-! Collision resolver from src/core/CollisionDetector.ts. -/

/-- The reason of a collision. -/
inductive CollisionReason where
  | wall | floor | piece
deriving DecidableEq, Repr

/-- A collision check result. -/
structure CollisionResult where
  hasCollision : Bool
  reason : Option CollisionReason
deriving DecidableEq, Repr

/-- The per-cell body of the checkCollision loop: walls are checked
first, then the floor, then above-board cells are skipped, then the
board cell occupancy; the first violation wins. -/
def checkCellCollision (board : BoardGrid) (p : Position) : Option CollisionReason :=
  if p.x < 0 ∨ (BOARD_COLS : Int) ≤ p.x then some .wall
  else if (BOARD_ROWS : Int) ≤ p.y then some .floor
  else if p.y < 0 then none
  else if ¬ isCellVacant board p then some .piece
  else none

/-- checkCollision: scan the occupied cells translated by the offset and
return the first collision found, if any. -/
def checkCollision (board : BoardGrid) (tetromino : Tetromino)
    (offsetX offsetY : Int) : CollisionResult :=
  match (getTetrominoOccupiedCells tetromino).findSome?
      (fun cell => checkCellCollision board
        { x := cell.x + offsetX, y := cell.y + offsetY }) with
  | some r => { hasCollision := true, reason := some r }
  | none => { hasCollision := false, reason := none }

def canMoveLeft (board : BoardGrid) (tetromino : Tetromino) : Bool :=
  !(checkCollision board tetromino (-1) 0).hasCollision

def canMoveRight (board : BoardGrid) (tetromino : Tetromino) : Bool :=
  !(checkCollision board tetromino 1 0).hasCollision

def canMoveDown (board : BoardGrid) (tetromino : Tetromino) : Bool :=
  !(checkCollision board tetromino 0 1).hasCollision

/-- calculateWallKick: try the rotated shape in place first; on collision
probe kicks -1, -2, -3 when the un-rotated anchor is right of the board
center, else kicks 1, 2, 3, returning the first collision-free one and
falling back to 0 when the probes are exhausted.  The source also
computes the extreme x coordinates of the rotated cells but never reads
them, so that dead computation is not repeated here. -/
def calculateWallKick (board : BoardGrid) (tetromino rotatedTetromino : Tetromino) : Int :=
  if !(checkCollision board rotatedTetromino 0 0).hasCollision then 0
  else
    let kicks : List Int :=
      if (BOARD_COLS : Int) / 2 < tetromino.position.x then [-1, -2, -3]
      else [1, 2, 3]
    match kicks.find? (fun kick =>
        !(checkCollision board rotatedTetromino kick 0).hasCollision) with
    | some kick => kick
    | none => 0

/-- canRotate: the wall-kick offset when the rotation fits with it,
otherwise none. -/
def canRotate (board : BoardGrid) (tetromino rotatedTetromino : Tetromino) : Option Int :=
  let kick := calculateWallKick board tetromino rotatedTetromino
  if !(checkCollision board rotatedTetromino kick 0).hasCollision then some kick
  else none

/-- The descent loop of findGhostPosition with explicit fuel: while the
one-row-lower translation is collision-free, increment the candidate
ghost row. -/
def findGhostLoop (board : BoardGrid) (tetromino : Tetromino) : Nat → Int → Int
  | 0, ghostY => ghostY
  | fuel + 1, ghostY =>
    if (checkCollision board tetromino 0 (ghostY - tetromino.position.y + 1)).hasCollision
    then ghostY
    else findGhostLoop board tetromino fuel (ghostY + 1)

/-- Fuel that provably outlasts the descent: one more step than the
number of rows between the anchor and the floor. -/
def ghostFuel (tetromino : Tetromino) : Nat :=
  ((BOARD_ROWS : Int) - tetromino.position.y).toNat + 1

/-- findGhostPosition: keep the x anchor and descend the y anchor until
one more row would collide. -/
def findGhostPosition (board : BoardGrid) (tetromino : Tetromino) : Position :=
  { x := tetromino.position.x
    y := findGhostLoop board tetromino (ghostFuel tetromino) tetromino.position.y }

/-- calculateHardDropDistance: rows between the ghost row and the anchor. -/
def calculateHardDropDistance (board : BoardGrid) (tetromino : Tetromino) : Int :=
  (findGhostPosition board tetromino).y - tetromino.position.y

/-! Mode policy from src/core/GameModes.ts. -/

def getGameModeConfig (mode : GameMode) : GameModeConfig :=
  GAME_MODE_CONFIGS mode

/-- getRemainingTime for a bounded mode; the source returns Infinity for
an unbounded one, modelled as none. -/
def getRemainingTime (mode : GameMode) (elapsedSeconds : Rat) : Option Rat :=
  match (getGameModeConfig mode).timeLimit with
  | none => none
  | some timeLimit => some (max 0 (timeLimit - elapsedSeconds))

/-- isTimeUp: elapsed time has reached the limit of a bounded mode. -/
def isTimeUp (mode : GameMode) (elapsedSeconds : Rat) : Bool :=
  match (getGameModeConfig mode).timeLimit with
  | none => false
  | some timeLimit => timeLimit ≤ elapsedSeconds

/-- shouldTriggerTimeWarning: remaining time was above the threshold at
the previous sample and is at or below it at the current one. -/
def shouldTriggerTimeWarning (mode : GameMode)
    (previousSeconds currentSeconds warningSeconds : Rat) : Bool :=
  match (getGameModeConfig mode).timeLimit with
  | none => false
  | some timeLimit =>
    let previousRemaining := timeLimit - previousSeconds
    let currentRemaining := timeLimit - currentSeconds
    warningSeconds < previousRemaining && currentRemaining ≤ warningSeconds

/-! Scoring from src/core/ScoringSystem.ts. -/

/-- Math.floor on a rational, as applied to the line score. -/
def mathFloor (q : Rat) : Rat := ((⌊q⌋ : Int) : Rat)

/-- calculateLineScore: zero lines score nothing, otherwise base times
the per-count multiplier (missing counts fall back to 1) plus the level
bonus, floored. -/
def calculateLineScore (linesCleared currentLevel : Nat) : Rat :=
  if linesCleared = 0 then 0
  else
    let multiplier := match SCORE_MULTIPLIERS linesCleared with
      | some m => m
      | none => 1
    let baseScore := SCORE_BASE * multiplier
    let levelBonus := (currentLevel : Rat) * SCORE_BASE
    mathFloor (baseScore + levelBonus)

def calculateSoftDropBonus (cellsDropped : Int) : Rat :=
  (cellsDropped : Rat) * (1/2)

def calculateHardDropBonus (cellsDropped : Int) : Rat :=
  (cellsDropped : Rat) * 2

def calculateLevel (totalLines : Nat) : Nat :=
  min (totalLines / LINES_PER_LEVEL) MAX_LEVEL

def shouldLevelUp (previousLines newLines : Nat) : Bool :=
  calculateLevel previousLines < calculateLevel newLines

/-- getDropSpeed: the speed table at the clamped level, with the source
null-coalescing fallbacks. -/
def getDropSpeed (level : Nat) : Nat :=
  let clampedLevel := min (max level 0) MAX_LEVEL
  match LEVEL_SPEEDS clampedLevel with
  | some speed => speed
  | none =>
    match LEVEL_SPEEDS MAX_LEVEL with
    | some speed => speed
    | none => 40

/-- The result record of updateScoreAfterLineClear. -/
structure ScoreInfo where
  points : Rat
  linesCleared : Nat
  level : Nat
  bonus : Rat
deriving DecidableEq, Repr

def updateScoreAfterLineClear (currentScore : Rat) (currentLines currentLevel : Nat)
    (linesCleared : Nat) : ScoreInfo :=
  if linesCleared = 0 then
    { points := currentScore, linesCleared := currentLines,
      level := currentLevel, bonus := 0 }
  else
    let lineScore := calculateLineScore linesCleared currentLevel
    let newScore := currentScore + lineScore
    let newLines := currentLines + linesCleared
    let newLevel := calculateLevel newLines
    { points := newScore, linesCleared := newLines,
      level := newLevel, bonus := lineScore }

def updateScoreAfterSoftDrop (currentScore : Rat) (cellsDropped : Int) : Rat :=
  currentScore + calculateSoftDropBonus cellsDropped

def updateScoreAfterHardDrop (currentScore : Rat) (cellsDropped : Int) : Rat :=
  currentScore + calculateHardDropBonus cellsDropped

/-! Game engine from src/core/GameEngine.ts.  Methods become functions
from an engine value (plus the resolved random draws and, where the
source reads Date.now, the sampled wall-clock millisecond value) to the
updated engine, the boolean result where the method returns one, and the
list of events emitted during the call, in emission order. -/

/-- The aggregate game state owned by the engine. -/
structure GameState where
  board : BoardGrid
  currentPiece : Option Tetromino
  nextPiece : Tetromino
  holdPiece : Option Tetromino
  canHold : Bool
  score : Rat
  lines : Nat
  level : Nat
  isGameOver : Bool
  isPaused : Bool
  gameMode : GameMode
deriving DecidableEq, Repr

/-- The event taxonomy with payloads. -/
inductive GameEvent where
  | pieceMoved (direction : String)
  | pieceRotated
  | pieceLocked
  | lineCleared (count : Nat) (bonus : Rat)
  | levelUp (level : Nat)
  | gameOverEvent (score : Rat) (lines level : Nat) (duration : Rat)
  | gamePaused
  | gameResumed
  | scoreUpdated (score : Rat)
  | timeWarning (secondsRemaining : Rat)
  | timeUp
deriving DecidableEq, Repr

/-- The engine with its private fields: the wall-clock millisecond stamp
of the last automatic drop, the accumulated elapsed seconds, the private
pause flag mirrored into the state, and the combo counter. -/
structure Engine where
  state : GameState
  lastDropTime : Int
  elapsedTime : Rat
  isPaused : Bool
  combo : Nat
deriving DecidableEq, Repr

/-- createInitialState with the two initial random draws resolved. -/
def createInitialState (mode : GameMode) (drawCurrent drawNext : TetrominoType) : GameState :=
  { board := createBoard
    currentPiece := some (createRandomTetromino drawCurrent none)
    nextPiece := createRandomTetromino drawNext none
    holdPiece := none
    canHold := true
    score := 0
    lines := 0
    level := 0
    isGameOver := false
    isPaused := false
    gameMode := mode }

/-- The engine constructor, with the construction-time Date.now sample. -/
def mkEngine (mode : GameMode) (drawCurrent drawNext : TetrominoType)
    (now : Int) : Engine :=
  { state := createInitialState mode drawCurrent drawNext
    lastDropTime := now
    elapsedTime := 0
    isPaused := false
    combo := 0 }

/-- The private gameOver method: set the terminal flag and emit the game
over event with its payload. -/
def gameOverE (e : Engine) : Engine × List GameEvent :=
  ({ e with state := { e.state with isGameOver := true } },
   [GameEvent.gameOverEvent e.state.score e.state.lines e.state.level e.elapsedTime])

/-- The private lockCurrentPiece method; draw resolves the random type of
the freshly spawned next piece. -/
def lockCurrentPieceE (e : Engine) (draw : TetrominoType) : Engine × List GameEvent :=
  match e.state.currentPiece with
  | none => (e, [])
  | some currentPiece =>
    if isPieceAboveBoard currentPiece then gameOverE e
    else
      let board1 := lockPiece e.state.board currentPiece
      let evs1 := [GameEvent.pieceLocked]
      let cleared := clearCompleteLines board1
      let board2 := cleared.1
      let linesCleared := cleared.2
      let s1 := { e.state with board := board2 }
      let branch :=
        if 0 < linesCleared then
          let previousLines := s1.lines
          let scoreInfo := updateScoreAfterLineClear s1.score s1.lines s1.level linesCleared
          let s2 := { s1 with score := scoreInfo.points,
                              lines := scoreInfo.linesCleared,
                              level := scoreInfo.level }
          let evsA := [GameEvent.lineCleared linesCleared scoreInfo.bonus]
          let evsB := if shouldLevelUp previousLines s2.lines
                      then [GameEvent.levelUp s2.level] else []
          let evsC := [GameEvent.scoreUpdated s2.score]
          (s2, e.combo + 1, evsA ++ evsB ++ evsC)
        else (s1, 0, [])
      let s2 := branch.1
      let combo2 := branch.2.1
      let evs2 := branch.2.2
      let spawned := s2.nextPiece
      let s3 := { s2 with currentPiece := some spawned,
                          nextPiece := createRandomTetromino draw none,
                          canHold := true }
      let e3 := { e with state := s3, combo := combo2 }
      if (checkCollision s3.board spawned 0 0).hasCollision then
        let r := gameOverE e3
        (r.1, evs1 ++ evs2 ++ r.2)
      else (e3, evs1 ++ evs2)

/-- moveLeft. -/
def moveLeftE (e : Engine) : Bool × Engine × List GameEvent :=
  if e.state.isGameOver || e.isPaused then (false, e, [])
  else
    match e.state.currentPiece with
    | none => (false, e, [])
    | some currentPiece =>
      let movedPiece := moveTetromino currentPiece (-1) 0
      if !(checkCollision e.state.board movedPiece 0 0).hasCollision then
        (true, { e with state := { e.state with currentPiece := some movedPiece } },
         [GameEvent.pieceMoved "left"])
      else (false, e, [])

/-- moveRight. -/
def moveRightE (e : Engine) : Bool × Engine × List GameEvent :=
  if e.state.isGameOver || e.isPaused then (false, e, [])
  else
    match e.state.currentPiece with
    | none => (false, e, [])
    | some currentPiece =>
      let movedPiece := moveTetromino currentPiece 1 0
      if !(checkCollision e.state.board movedPiece 0 0).hasCollision then
        (true, { e with state := { e.state with currentPiece := some movedPiece } },
         [GameEvent.pieceMoved "right"])
      else (false, e, [])

/-- moveDown: soft drop one row, or trigger the lock sequence when the
row below is blocked. -/
def moveDownE (e : Engine) (draw : TetrominoType) : Bool × Engine × List GameEvent :=
  if e.state.isGameOver || e.isPaused then (false, e, [])
  else
    match e.state.currentPiece with
    | none => (false, e, [])
    | some currentPiece =>
      if canMoveDown e.state.board currentPiece then
        let s1 := { e.state with
          currentPiece := some (moveTetromino currentPiece 0 1),
          score := updateScoreAfterSoftDrop e.state.score 1 }
        (true, { e with state := s1 }, [GameEvent.pieceMoved "down"])
      else
        let (e1, evs) := lockCurrentPieceE e draw
        (false, e1, evs)

/-- rotate: catalog rotation plus wall-kick resolution; on success apply
the offset, otherwise leave the state untouched. -/
def rotateE (e : Engine) : Bool × Engine × List GameEvent :=
  if e.state.isGameOver || e.isPaused then (false, e, [])
  else
    match e.state.currentPiece with
    | none => (false, e, [])
    | some currentPiece =>
      let rotated := rotateTetromino currentPiece
      match canRotate e.state.board currentPiece rotated with
      | some kick =>
        let finalPiece := moveTetromino rotated kick 0
        (true, { e with state := { e.state with currentPiece := some finalPiece } },
         [GameEvent.pieceRotated])
      | none => (false, e, [])

/-- hardDrop: teleport to the ghost position, award the hard-drop bonus,
and lock. -/
def hardDropE (e : Engine) (draw : TetrominoType) : Engine × List GameEvent :=
  if e.state.isGameOver || e.isPaused then (e, [])
  else
    match e.state.currentPiece with
    | none => (e, [])
    | some currentPiece =>
      let distance := calculateHardDropDistance e.state.board currentPiece
      let ghostPosition := findGhostPosition e.state.board currentPiece
      let dropped := moveTetromino currentPiece
        (ghostPosition.x - currentPiece.position.x)
        (ghostPosition.y - currentPiece.position.y)
      let s1 := { e.state with
        currentPiece := some dropped,
        score := updateScoreAfterHardDrop e.state.score distance }
      lockCurrentPieceE { e with state := s1 } draw

/-- hold: the first hold stores a freshly drawn piece whose type field is
then overwritten with the current type and promotes the queue; later
holds draw a fresh piece for the current slot and swap the type fields.
drawA resolves the draw inside the taken branch, drawB the new next
piece of the first branch.  The method emits no events. -/
def holdE (e : Engine) (drawA drawB : TetrominoType) : Bool × Engine :=
  if e.state.isGameOver || e.isPaused then (false, e)
  else
    match e.state.currentPiece with
    | none => (false, e)
    | some currentPiece =>
      if !e.state.canHold then (false, e)
      else
        match e.state.holdPiece with
        | none =>
          let holdPiece0 := createRandomTetromino drawA none
          let holdPiece1 := { holdPiece0 with type := currentPiece.type }
          let s1 := { e.state with
            holdPiece := some holdPiece1,
            currentPiece := some e.state.nextPiece,
            nextPiece := createRandomTetromino drawB none,
            canHold := false }
          (true, { e with state := s1 })
        | some holdPiece =>
          let temp := currentPiece.type
          let current0 := createRandomTetromino drawA none
          let current1 := { current0 with type := holdPiece.type }
          let s1 := { e.state with
            currentPiece := some current1,
            holdPiece := some { holdPiece with type := temp },
            canHold := false }
          (true, { e with state := s1 })

/-- pause. -/
def pauseE (e : Engine) : Engine × List GameEvent :=
  if e.state.isGameOver then (e, [])
  else
    ({ e with isPaused := true, state := { e.state with isPaused := true } },
     [GameEvent.gamePaused])

/-- resume, with the Date.now sample that resets the drop timer. -/
def resumeE (e : Engine) (now : Int) : Engine × List GameEvent :=
  if e.state.isGameOver then (e, [])
  else
    ({ e with isPaused := false, lastDropTime := now,
              state := { e.state with isPaused := false } },
     [GameEvent.gameResumed])

/-- The private checkTimeLimit method: in Ultra mode the previous sample
is approximated as one sixtieth of a second before the current elapsed
time, each warning threshold is tested against that pair, and a timeout
emits the time-up event and ends the game. -/
def checkTimeLimitE (e : Engine) : Engine × List GameEvent :=
  if e.state.gameMode = GameMode.ULTRA then
    let previousElapsed := e.elapsedTime - 1/60
    let warningEvents := TIME_WARNINGS.filterMap (fun warningTime =>
      if shouldTriggerTimeWarning e.state.gameMode previousElapsed e.elapsedTime warningTime
      then some (GameEvent.timeWarning warningTime)
      else none)
    if isTimeUp e.state.gameMode e.elapsedTime then
      let (e1, evs1) := gameOverE e
      (e1, warningEvents ++ [GameEvent.timeUp] ++ evs1)
    else (e, warningEvents)
  else (e, [])

/-- The private handleAutoDrop method: reads the wall clock and performs
a soft drop when the sampled time is at least one drop interval past the
last drop stamp. -/
def handleAutoDropE (e : Engine) (now : Int) (draw : TetrominoType) : Engine × List GameEvent :=
  let dropSpeed := getDropSpeed e.state.level
  if (dropSpeed : Int) ≤ now - e.lastDropTime then
    let r := moveDownE e draw
    ({ r.2.1 with lastDropTime := now }, r.2.2)
  else (e, [])

/-- update: a no-op when over or paused, otherwise accumulate the
supplied delta into the elapsed seconds, run the time-limit checks, then
the wall-clock gravity step. -/
def updateE (e : Engine) (deltaTime : Rat) (now : Int) (draw : TetrominoType) :
    Engine × List GameEvent :=
  if e.state.isGameOver || e.isPaused then (e, [])
  else
    let e1 := { e with elapsedTime := e.elapsedTime + deltaTime / 1000 }
    let (e2, evs2) := checkTimeLimitE e1
    let (e3, evs3) := handleAutoDropE e2 now draw
    (e3, evs2 ++ evs3)

/-! Specification-side definitions, written from the words of the spec
for comparison with the source embedding, and concrete fixtures. -/

/-- Number of rotation states of a type in the catalog. -/
def rotationCount (type : TetrominoType) : Nat :=
  (TETROMINO_SHAPES type).shape.length

/-- The piece-instance invariant of the spec data model: the rotation
index is in range, the shape matrix is the catalog entry for the type
and rotation index, and the color is the catalog color of the type. -/
def pieceWF (t : Tetromino) : Bool :=
  decide (t.rotation < rotationCount t.type) &&
  ((TETROMINO_SHAPES t.type).shape.get? t.rotation == some t.shape) &&
  (t.color == TETROMINO_COLORS t.type)

/-- The probe sequence the spec prescribes for rotation resolution:
offset 0 first, then -1, -2, -3 when the un-rotated anchor x is right of
board-center, else 1, 2, 3. -/
def kickProbeList (tetromino : Tetromino) : List Int :=
  0 :: (if (BOARD_COLS : Int) / 2 < tetromino.position.x
        then [-1, -2, -3] else [1, 2, 3])

/-- Rotation resolution as the spec words it: the first probed offset
under which the rotated piece does not collide, if any. -/
def canRotateSpec (board : BoardGrid) (tetromino rotatedTetromino : Tetromino) : Option Int :=
  (kickProbeList tetromino).find? (fun kick =>
    !(checkCollision board rotatedTetromino kick 0).hasCollision)

/-- An engine over an empty board with a chosen mode and current piece,
with the construction clock at zero. -/
def testEngine (mode : GameMode) (cur : Tetromino) : Engine :=
  { state := { createInitialState mode .I .J with currentPiece := some cur }
    lastDropTime := 0
    elapsedTime := 0
    isPaused := false
    combo := 0 }

/-- Fixture for the hold claim: a T piece in play, nothing held yet. -/
def engC1 : Engine := testEngine .CLASSIC (createTetromino .T none)

/-- Fixture for the timed-mode claim: a fresh Ultra engine. -/
def engC2 : Engine := mkEngine .ULTRA .O .O 0

/-- Fixture for the logical-time claim: an O piece in play in Classic. -/
def engC3 : Engine := testEngine .CLASSIC (createTetromino .O none)

/-- Fixture for the line-clear claim: rows 18 and 19 filled solid green,
everything above vacant. -/
def boardC6 : BoardGrid :=
  List.replicate 18 (List.replicate BOARD_COLS VACANT_COLOR) ++
    [List.replicate BOARD_COLS "green", List.replicate BOARD_COLS "green"]

/-- Fixture for the rotation claim: a horizontal I piece one row above
the floor, whose vertical rotation collides with the floor at every
probed kick. -/
def pieceC4 : Tetromino :=
  { createTetromino .I none with position := { x := 3, y := 17 } }

/-- The cell of the board addressed by a position, read row first. -/
def cellAt (board : BoardGrid) (p : Position) : Option String :=
  (board.get? p.y.toNat).bind (fun row => row.get? p.x.toNat)

/-- C1.  The hold method violates the catalog invariant of the spec data
model: on a first-ever hold of a T piece where the internal random draw
yields type I, the stored hold piece keeps the I shape matrix and the I
color while its type field says T, so its shape is not the catalog entry
for its type.  The hold call itself reports success. -/
theorem C1_hold_breaks_catalog_invariant :
    (holdE engC1 .I .J).1 = true ∧
    ((holdE engC1 .I .J).2.state.holdPiece).map pieceWF = some false := by
  exact ⟨rfl, rfl⟩

/-- C2.  In Ultra mode, feeding update a 90000 ms delta and then a 5 ms
delta crosses the 30-second warning threshold once but emits the
TIME_WARNING event with 30 seconds remaining twice, because the engine
fabricates the previous sample as one sixtieth of a second before the
current elapsed time. -/
theorem C2_time_warning_fires_twice :
    ((updateE engC2 90000 0 .I).2 ++
        (updateE (updateE engC2 90000 0 .I).1 5 0 .I).2).countP
      (fun ev => decide (ev = GameEvent.timeWarning 30)) = 2 := by
  norm_num [updateE, engC2, mkEngine, createInitialState, checkTimeLimitE,
    handleAutoDropE, shouldTriggerTimeWarning, isTimeUp, getGameModeConfig,
    GAME_MODE_CONFIGS, TIME_WARNINGS, getDropSpeed, LEVEL_SPEEDS, MAX_LEVEL,
    List.filterMap, List.countP, List.countP.go]

/-- C6.  With rows 18 and 19 complete and nothing else occupied,
findCompleteLines reports both rows, but clearLines on that very answer
leaves a complete green row on the board (at index 19): unshifting the
fresh top row inside the descending loop shifts the remaining indices,
so the second splice removes the original row 17 instead of row 18. -/
theorem C6_clearLines_leaves_complete_row :
    findCompleteLines boardC6 = [18, 19] ∧
    (clearLines boardC6 (findCompleteLines boardC6)).get? 19 =
      some (List.replicate BOARD_COLS "green") ∧
    findCompleteLines (clearLines boardC6 (findCompleteLines boardC6)) = [19] := by
  exact ⟨rfl, rfl, rfl⟩

/-- C3 counterexample.  Two runs from the same initial engine, fed the
same action sequence, the same 16 ms delta and the same random draw,
but observed at different wall-clock instants, reach different states:
the run whose Date.now sample is 1000 ms performs an automatic drop
(changing the piece position and adding the soft-drop half point) while
the run sampled at 10 ms does not. -/
theorem C3_wall_clock_divergence :
    (updateE engC3 16 1000 .I).1.state ≠ (updateE engC3 16 10 .I).1.state := by
  intro h
  exact absurd (congrArg GameState.currentPiece h) (by decide)

/-- C3 amended.  In a running Classic game, an update tick accumulates
the supplied delta into the elapsed seconds, but the gravity step is
wall-clock driven: exactly when the Date.now sample is at least one drop
interval past the last-drop stamp, one moveDown is performed and the
stamp is set to the sample; otherwise nothing but the elapsed time
changes. -/
theorem C3_update_gravity_is_wall_clock_driven (e : Engine) (deltaTime : Rat)
    (now : Int) (draw : TetrominoType)
    (hmode : e.state.gameMode = GameMode.CLASSIC)
    (hover : e.state.isGameOver = false) (hpause : e.isPaused = false) :
    updateE e deltaTime now draw =
      (let e1 := { e with elapsedTime := e.elapsedTime + deltaTime / 1000 }
       if (getDropSpeed e.state.level : Int) ≤ now - e.lastDropTime then
         let r := moveDownE e1 draw
         ({ r.2.1 with lastDropTime := now }, r.2.2)
       else (e1, [])) := by
  simp [updateE, hover, hpause, checkTimeLimitE, hmode, handleAutoDropE]

/-- Witness for the C3 amended theorem at a concrete running engine. -/
theorem C3_update_gravity_is_wall_clock_driven_witness :
    updateE engC3 16 1000 .I =
      (let e1 := { engC3 with elapsedTime := engC3.elapsedTime + 16 / 1000 }
       if (getDropSpeed engC3.state.level : Int) ≤ 1000 - engC3.lastDropTime then
         let r := moveDownE e1 .I
         ({ r.2.1 with lastDropTime := 1000 }, r.2.2)
       else (e1, [])) :=
  C3_update_gravity_is_wall_clock_driven engC3 16 1000 .I rfl rfl rfl

/-- C5.  The vacancy test: any position above the board is vacant
whatever the board holds; any position at or below the top row that is
outside the horizontal bounds or at or below the floor is not vacant;
and an in-bounds position is vacant exactly when its cell holds the
vacant sentinel. -/
theorem C5_isCellVacant_spec (board : BoardGrid) (p : Position) :
    (p.y < 0 → isCellVacant board p = true) ∧
    (0 ≤ p.y → (p.x < 0 ∨ (BOARD_COLS : Int) ≤ p.x ∨ (BOARD_ROWS : Int) ≤ p.y) →
      isCellVacant board p = false) ∧
    (0 ≤ p.x → p.x < (BOARD_COLS : Int) → 0 ≤ p.y → p.y < (BOARD_ROWS : Int) →
      (isCellVacant board p = true ↔ cellAt board p = some VACANT_COLOR)) := by
  refine ⟨fun hy => by simp [isCellVacant, hy], fun hy hout => ?_, fun hx1 hx2 hy1 hy2 => ?_⟩
  · have hnv : isValidPosition p = false := by
      simp only [isValidPosition]
      rcases hout with h | h | h <;> simp [h, not_lt.mpr, not_le.mpr]
    simp [isCellVacant, not_lt.mpr hy, hnv]
  · have hv : isValidPosition p = true := by
      simp only [isValidPosition]
      simp [hx1, hx2, hy1, hy2]
    simp only [isCellVacant, not_lt.mpr hy1, if_false, hv, cellAt]
    cases hrow : board.get? p.y.toNat with
    | none => simp
    | some row =>
      cases hc : row.get? p.x.toNat with
      | none => simp
      | some c => simp [beq_iff_eq]

/-- Witness for C5 at a concrete board and positions exercising each
clause: the above-board clause at y = -1, the out-of-bounds clause at
x = -1, and the in-bounds clause on the empty board. -/
theorem C5_isCellVacant_spec_witness :
    isCellVacant createBoard { x := 4, y := -1 } = true ∧
    isCellVacant createBoard { x := -1, y := 5 } = false ∧
    isCellVacant createBoard { x := 4, y := 5 } = true := by
  refine ⟨(C5_isCellVacant_spec createBoard { x := 4, y := -1 }).1 (by decide),
    (C5_isCellVacant_spec createBoard { x := -1, y := 5 }).2.1 (by decide)
      (Or.inl (by decide)), ?_⟩
  exact ((C5_isCellVacant_spec createBoard { x := 4, y := 5 }).2.2 (by decide)
    (by decide) (by decide) (by decide)).mpr (by decide)

/-- Floor of a natural-valued sum used by the line-score closed forms. -/
theorem mathFloor_nat_add (c L : Nat) :
    mathFloor ((c : Rat) + (L : Rat) * 40) = ((c + 40 * L : Nat) : Rat) := by
  have h : ((c : Rat) + (L : Rat) * 40) = (((c + 40 * L : Nat) : Int) : Rat) := by
    push_cast; ring
  rw [h, mathFloor, Int.floor_intCast]
  push_cast; ring

/-- C7.  The line score: zero lines score zero; for one to four lines the
score is the floor of base times the multiplier plus level times base,
with base 40 and multipliers 1, 5/2, 5, 8; counts above four fall back
to multiplier 1; at a fixed level the score strictly increases from one
through four lines, and the single-line score strictly increases with
the level. -/
theorem C7_calculateLineScore_spec :
    (∀ L : Nat, calculateLineScore 0 L = 0) ∧
    (∀ L : Nat,
      calculateLineScore 1 L = mathFloor (SCORE_BASE * 1 + (L : Rat) * SCORE_BASE) ∧
      calculateLineScore 2 L = mathFloor (SCORE_BASE * (5/2) + (L : Rat) * SCORE_BASE) ∧
      calculateLineScore 3 L = mathFloor (SCORE_BASE * 5 + (L : Rat) * SCORE_BASE) ∧
      calculateLineScore 4 L = mathFloor (SCORE_BASE * 8 + (L : Rat) * SCORE_BASE)) ∧
    (∀ n L : Nat, 4 < n →
      calculateLineScore n L = mathFloor (SCORE_BASE * 1 + (L : Rat) * SCORE_BASE)) ∧
    (∀ L : Nat, calculateLineScore 1 L < calculateLineScore 2 L ∧
      calculateLineScore 2 L < calculateLineScore 3 L ∧
      calculateLineScore 3 L < calculateLineScore 4 L) ∧
    (∀ L1 L2 : Nat, L1 < L2 → calculateLineScore 1 L1 < calculateLineScore 1 L2) := by
  have h1 : ∀ L : Nat, calculateLineScore 1 L = ((40 + 40 * L : Nat) : Rat) := by
    intro L
    show mathFloor (SCORE_BASE * 1 + (L : Rat) * SCORE_BASE) = _
    rw [show SCORE_BASE * 1 + (L : Rat) * SCORE_BASE = (40 : Rat) + (L : Rat) * 40 by
      simp [SCORE_BASE]]
    exact mathFloor_nat_add 40 L
  have h2 : ∀ L : Nat, calculateLineScore 2 L = ((100 + 40 * L : Nat) : Rat) := by
    intro L
    show mathFloor (SCORE_BASE * (5/2) + (L : Rat) * SCORE_BASE) = _
    rw [show SCORE_BASE * (5/2) + (L : Rat) * SCORE_BASE = (100 : Rat) + (L : Rat) * 40 by
      simp [SCORE_BASE]; ring_nf]
    exact mathFloor_nat_add 100 L
  have h3 : ∀ L : Nat, calculateLineScore 3 L = ((200 + 40 * L : Nat) : Rat) := by
    intro L
    show mathFloor (SCORE_BASE * 5 + (L : Rat) * SCORE_BASE) = _
    rw [show SCORE_BASE * 5 + (L : Rat) * SCORE_BASE = (200 : Rat) + (L : Rat) * 40 by
      simp [SCORE_BASE]; ring]
    exact mathFloor_nat_add 200 L
  have h4 : ∀ L : Nat, calculateLineScore 4 L = ((320 + 40 * L : Nat) : Rat) := by
    intro L
    show mathFloor (SCORE_BASE * 8 + (L : Rat) * SCORE_BASE) = _
    rw [show SCORE_BASE * 8 + (L : Rat) * SCORE_BASE = (320 : Rat) + (L : Rat) * 40 by
      simp [SCORE_BASE]; ring]
    exact mathFloor_nat_add 320 L
  refine ⟨fun L => rfl, fun L => ⟨rfl, rfl, rfl, rfl⟩, fun n L hn => ?_, fun L => ?_, ?_⟩
  · have hms : SCORE_MULTIPLIERS n = none := by
      rcases n with _ | _ | _ | _ | _ | m <;> first | omega | rfl
    have hnz : ¬ n = 0 := by omega
    simp [calculateLineScore, hms, hnz]
  · refine ⟨?_, ?_, ?_⟩
    · rw [h1 L, h2 L]; exact_mod_cast by omega
    · rw [h2 L, h3 L]; exact_mod_cast by omega
    · rw [h3 L, h4 L]; exact_mod_cast by omega
  · intro L1 L2 hL
    rw [h1 L1, h1 L2]; exact_mod_cast by omega

/-- Witness for C7 at concrete counts and levels. -/
theorem C7_calculateLineScore_spec_witness :
    calculateLineScore 0 7 = 0 ∧
    calculateLineScore 4 3 = mathFloor (SCORE_BASE * 8 + ((3 : Nat) : Rat) * SCORE_BASE) ∧
    (4 < 5 → calculateLineScore 5 3 = mathFloor (SCORE_BASE * 1 + ((3 : Nat) : Rat) * SCORE_BASE)) ∧
    calculateLineScore 3 3 < calculateLineScore 4 3 ∧
    (2 < 6 → calculateLineScore 1 2 < calculateLineScore 1 6) :=
  ⟨C7_calculateLineScore_spec.1 7,
   (C7_calculateLineScore_spec.2.1 3).2.2.2,
   fun h => C7_calculateLineScore_spec.2.2.1 5 3 h,
   (C7_calculateLineScore_spec.2.2.2.1 3).2.2,
   fun h => C7_calculateLineScore_spec.2.2.2.2 2 6 h⟩

/-- C8.  Every action method is a guarded no-op whenever the game is over
or paused: the movement, rotation and hold methods return false and the
engine (its whole state included) is unchanged, and hardDrop returns
with no effect. -/
theorem C8_actions_noop_when_paused_or_over (e : Engine)
    (h : e.state.isGameOver = true ∨ e.isPaused = true) :
    moveLeftE e = (false, e, []) ∧ moveRightE e = (false, e, []) ∧
    (∀ draw, moveDownE e draw = (false, e, [])) ∧
    rotateE e = (false, e, []) ∧
    (∀ drawA drawB, holdE e drawA drawB = (false, e)) ∧
    (∀ draw, hardDropE e draw = (e, [])) := by
  have hb : (e.state.isGameOver || e.isPaused) = true := by
    rcases h with h | h <;> simp [h]
  exact ⟨by simp [moveLeftE, hb], by simp [moveRightE, hb],
    fun d => by simp [moveDownE, hb], by simp [rotateE, hb],
    fun a b => by simp [holdE, hb], fun d => by simp [hardDropE, hb]⟩

/-- Witness for C8 at a freshly paused engine. -/
theorem C8_actions_noop_when_paused_or_over_witness :
    moveLeftE (pauseE engC1).1 = (false, (pauseE engC1).1, []) ∧
    moveRightE (pauseE engC1).1 = (false, (pauseE engC1).1, []) ∧
    (∀ draw, moveDownE (pauseE engC1).1 draw = (false, (pauseE engC1).1, [])) ∧
    rotateE (pauseE engC1).1 = (false, (pauseE engC1).1, []) ∧
    (∀ drawA drawB, holdE (pauseE engC1).1 drawA drawB = (false, (pauseE engC1).1)) ∧
    (∀ draw, hardDropE (pauseE engC1).1 draw = ((pauseE engC1).1, [])) :=
  C8_actions_noop_when_paused_or_over (pauseE engC1).1 (Or.inr rfl)

/-- C4.  Rotation resolution equals the spec probe order: offset 0 is
tested first, then kicks -1, -2, -3 when the un-rotated anchor x is
right of board-center and 1, 2, 3 otherwise; canRotate answers the
first collision-free probed offset and none when every probed offset
collides, in which case the engine rotate method reports false and
leaves the engine untouched. -/
theorem C4_rotation_resolution :
    (∀ (board : BoardGrid) (t rotated : Tetromino),
      canRotate board t rotated = canRotateSpec board t rotated) ∧
    (∀ (e : Engine) (t : Tetromino), e.state.currentPiece = some t →
      canRotate e.state.board t (rotateTetromino t) = none →
      rotateE e = (false, e, [])) := by
  constructor
  · intro board t rotated
    by_cases h0 : (checkCollision board rotated 0 0).hasCollision
    · have hspec : canRotateSpec board t rotated =
          (if (BOARD_COLS : Int) / 2 < t.position.x then ([-1, -2, -3] : List Int)
            else [1, 2, 3]).find?
            (fun kick => !(checkCollision board rotated kick 0).hasCollision) := by
        simp [canRotateSpec, kickProbeList, List.find?_cons, h0]
      rw [hspec]
      cases hf : (if (BOARD_COLS : Int) / 2 < t.position.x then ([-1, -2, -3] : List Int)
            else [1, 2, 3]).find?
            (fun kick => !(checkCollision board rotated kick 0).hasCollision) with
      | none => simp [canRotate, calculateWallKick, h0, hf]
      | some k =>
        have hk := List.find?_some hf
        simp only [Bool.not_eq_true'] at hk
        simp [canRotate, calculateWallKick, h0, hf, hk]
    · simp [canRotate, canRotateSpec, calculateWallKick, kickProbeList,
        List.find?_cons, h0]
  · intro e t hcur hnone
    by_cases hg : (e.state.isGameOver || e.isPaused) = true <;>
      simp [rotateE, hg, hcur, hnone]

/-- Witness for C4: a horizontal I piece one row above the floor, whose
vertical rotation hits the floor at offset 0 and at each probed kick, so
rotate fails and changes nothing. -/
theorem C4_rotation_resolution_witness :
    canRotate createBoard pieceC4 (rotateTetromino pieceC4) =
      canRotateSpec createBoard pieceC4 (rotateTetromino pieceC4) ∧
    rotateE (testEngine .CLASSIC pieceC4) = (false, testEngine .CLASSIC pieceC4, []) :=
  ⟨C4_rotation_resolution.1 createBoard pieceC4 (rotateTetromino pieceC4),
   C4_rotation_resolution.2 (testEngine .CLASSIC pieceC4) pieceC4 rfl (by decide)⟩

/-- Every occupied cell of a piece lies at or below the piece anchor row,
since shape row offsets are natural numbers. -/
theorem mem_occupied_y_le (t : Tetromino) (c : Position)
    (hc : c ∈ getTetrominoOccupiedCells t) : t.position.y ≤ c.y := by
  unfold getTetrominoOccupiedCells at hc
  rw [List.mem_flatMap] at hc
  obtain ⟨row, hrow, hmem⟩ := hc
  cases hs : t.shape.get? row with
  | none => rw [hs] at hmem; simp at hmem
  | some shapeRow =>
    rw [hs] at hmem
    rw [List.mem_filterMap] at hmem
    obtain ⟨col, hcol, hif⟩ := hmem
    by_cases h1 : shapeRow.get? col = some 1
    · rw [if_pos h1] at hif
      obtain rfl := Option.some_injective _ hif
      simp
    · rw [if_neg h1] at hif
      exact absurd hif (by simp)

/-- If some occupied cell translated by the offset collides, the whole
collision check reports a collision. -/
theorem collision_of_cell (board : BoardGrid) (t : Tetromino) (c : Position)
    (hc : c ∈ getTetrominoOccupiedCells t) (offsetX offsetY : Int)
    (hcell : (checkCellCollision board
      { x := c.x + offsetX, y := c.y + offsetY }).isSome = true) :
    (checkCollision board t offsetX offsetY).hasCollision = true := by
  unfold checkCollision
  cases hfs : (getTetrominoOccupiedCells t).findSome? (fun cell =>
      checkCellCollision board { x := cell.x + offsetX, y := cell.y + offsetY }) with
  | some r => rfl
  | none =>
    rw [List.findSome?_eq_none_iff] at hfs
    rw [hfs c hc] at hcell
    exact absurd hcell (by simp)

/-- Far enough down, every piece with an occupied cell hits the floor or
a wall: any vertical offset carrying the cell to or past the floor row
makes the collision check fire. -/
theorem collision_past_floor (board : BoardGrid) (t : Tetromino) (c : Position)
    (hc : c ∈ getTetrominoOccupiedCells t) (d : Int)
    (hd : (BOARD_ROWS : Int) - c.y ≤ d) :
    (checkCollision board t 0 d).hasCollision = true := by
  apply collision_of_cell board t c hc 0 d
  have hy : (BOARD_ROWS : Int) ≤ c.y + d := by omega
  simp only [checkCellCollision]
  split <;> rfl

/-- The ghost descent never moves the candidate row up. -/
theorem findGhostLoop_ge (board : BoardGrid) (t : Tetromino) :
    ∀ (fuel : Nat) (gy : Int), gy ≤ findGhostLoop board t fuel gy := by
  intro fuel
  induction fuel with
  | zero => intro gy; simp [findGhostLoop]
  | succ n ih =>
    intro gy
    unfold findGhostLoop
    split
    · exact le_refl gy
    · exact le_trans (by omega) (ih (gy + 1))

/-- When collisions are guaranteed from some offset on and the fuel
covers the distance to it, the descent loop exits through its collision
test: the returned row collides one row lower, and any extra fuel
returns the same row. -/
theorem findGhostLoop_exits (board : BoardGrid) (t : Tetromino) (K : Int)
    (H : ∀ d : Int, K ≤ d → (checkCollision board t 0 d).hasCollision = true) :
    ∀ (fuel : Nat) (gy : Int), K ≤ gy - t.position.y + 1 + (fuel : Int) →
      (checkCollision board t 0
        (findGhostLoop board t fuel gy - t.position.y + 1)).hasCollision = true ∧
      ∀ extra, findGhostLoop board t (fuel + extra) gy = findGhostLoop board t fuel gy := by
  intro fuel
  induction fuel with
  | zero =>
    intro gy hb
    have hcol : (checkCollision board t 0 (gy - t.position.y + 1)).hasCollision = true :=
      H _ (by push_cast at hb; omega)
    refine ⟨by simpa [findGhostLoop] using hcol, fun extra => ?_⟩
    cases extra with
    | zero => rfl
    | succ m =>
      rw [Nat.zero_add]
      simp [findGhostLoop, hcol]
  | succ n ih =>
    intro gy hb
    by_cases hcol : (checkCollision board t 0 (gy - t.position.y + 1)).hasCollision = true
    · refine ⟨by simp [findGhostLoop, hcol], fun extra => ?_⟩
      have hre : n + 1 + extra = (n + extra) + 1 := by omega
      rw [hre]
      simp [findGhostLoop, hcol]
    · have hcol' : (checkCollision board t 0 (gy - t.position.y + 1)).hasCollision = false := by
        simpa using hcol
      have hb' : K ≤ (gy + 1) - t.position.y + 1 + (n : Int) := by push_cast at hb ⊢; omega
      obtain ⟨h1, h2⟩ := ih (gy + 1) hb'
      refine ⟨by simpa [findGhostLoop, hcol'] using h1, fun extra => ?_⟩
      have hre : n + 1 + extra = (n + extra) + 1 := by omega
      rw [hre]
      simp [findGhostLoop, hcol', h2 extra]

/-- C10.  For every board and every piece with at least one occupied
cell, the ghost descent terminates through its collision test (extra
fuel cannot change the answer, and the returned row collides one row
lower), the ghost keeps the piece anchor column, and the hard-drop
distance is never negative. -/
theorem C10_ghost_descent (board : BoardGrid) (t : Tetromino)
    (h : getTetrominoOccupiedCells t ≠ []) :
    (findGhostPosition board t).x = t.position.x ∧
    0 ≤ calculateHardDropDistance board t ∧
    (checkCollision board t 0
      ((findGhostPosition board t).y - t.position.y + 1)).hasCollision = true ∧
    ∀ extra, findGhostLoop board t (ghostFuel t + extra) t.position.y =
      findGhostLoop board t (ghostFuel t) t.position.y := by
  obtain ⟨c, hc⟩ : ∃ c, c ∈ getTetrominoOccupiedCells t := by
    cases hl : getTetrominoOccupiedCells t with
    | nil => exact absurd hl h
    | cons a l => exact ⟨a, by simp [hl]⟩
  have hcy := mem_occupied_y_le t c hc
  have H : ∀ d : Int, (BOARD_ROWS : Int) - c.y ≤ d →
      (checkCollision board t 0 d).hasCollision = true :=
    fun d hd => collision_past_floor board t c hc d hd
  have hb : (BOARD_ROWS : Int) - c.y ≤
      t.position.y - t.position.y + 1 + (ghostFuel t : Int) := by
    unfold ghostFuel
    have hs := Int.self_le_toNat ((BOARD_ROWS : Int) - t.position.y)
    push_cast
    omega
  obtain ⟨h1, h2⟩ := findGhostLoop_exits board t _ H (ghostFuel t) t.position.y hb
  refine ⟨rfl, ?_, h1, h2⟩
  show 0 ≤ findGhostLoop board t (ghostFuel t) t.position.y - t.position.y
  have hge := findGhostLoop_ge board t (ghostFuel t) t.position.y
  omega

/-- Witness for C10 at an I piece over the empty board. -/
theorem C10_ghost_descent_witness :
    (findGhostPosition createBoard (createTetromino .I none)).x =
      (createTetromino .I none).position.x ∧
    0 ≤ calculateHardDropDistance createBoard (createTetromino .I none) :=
  ⟨(C10_ghost_descent createBoard (createTetromino .I none) (by decide)).1,
   (C10_ghost_descent createBoard (createTetromino .I none) (by decide)).2.1⟩

/-- A hold attempt always succeeds on a running, unpaused engine that has
a current piece and an unspent hold. -/
theorem holdE_succeeds (e : Engine) (a b : TetrominoType)
    (hgo : e.state.isGameOver = false) (hp : e.isPaused = false)
    (t : Tetromino) (hcur : e.state.currentPiece = some t)
    (hch : e.state.canHold = true) : (holdE e a b).1 = true := by
  unfold holdE
  rw [hgo, hp]
  simp only [Bool.or_self, Bool.false_eq_true, if_false, hcur, hch]
  cases e.state.holdPiece <;> rfl

/-- C9.  A successful hold clears the canHold flag; while the flag is
down every further hold attempt returns false and leaves the engine
untouched; and a lock of an in-board piece that does not end the game
raises the flag again, after which a hold attempt succeeds. -/
theorem C9_hold_once_per_spawn :
    (∀ (e : Engine) (a b : TetrominoType) (r : Engine),
      holdE e a b = (true, r) → r.state.canHold = false) ∧
    (∀ (e : Engine) (a b : TetrominoType),
      e.state.canHold = false → holdE e a b = (false, e)) ∧
    (∀ (e : Engine) (d : TetrominoType) (t : Tetromino),
      e.state.currentPiece = some t → isPieceAboveBoard t = false →
      (lockCurrentPieceE e d).1.state.isGameOver = false →
      (lockCurrentPieceE e d).1.state.canHold = true ∧
      (e.isPaused = false → ∀ a b, (holdE (lockCurrentPieceE e d).1 a b).1 = true)) := by
  refine ⟨?_, ?_, ?_⟩
  · intro e a b r h
    unfold holdE at h
    split at h
    · simp_all
    · split at h
      · simp_all
      · split at h
        · simp_all
        · split at h <;>
            (rw [Prod.mk.injEq] at h; obtain ⟨-, h2⟩ := h; subst h2; rfl)
  · intro e a b hch
    unfold holdE
    split
    · rfl
    · split
      · rfl
      · rw [hch]
        rfl
  · intro e d t hcur habove hng
    unfold lockCurrentPieceE at hng ⊢
    simp only [hcur, habove, Bool.false_eq_true, if_false] at hng ⊢
    split_ifs at hng ⊢ <;>
      exact ⟨rfl, fun hp a b => holdE_succeeds _ a b hng hp _ rfl rfl⟩

/-- Fixture for the C9 witness: a J piece resting just above the floor
of an empty board, ready to lock without ending the game. -/
def engC9 : Engine :=
  testEngine .CLASSIC { createTetromino .J none with position := { x := 3, y := 17 } }

/-- Witness for C9: the first hold on a fresh engine succeeds and clears
the flag, the second attempt fails and changes nothing, and after a
completed lock the flag is up again and a hold succeeds. -/
theorem C9_hold_once_per_spawn_witness :
    (holdE engC1 .I .J).2.state.canHold = false ∧
    holdE (holdE engC1 .I .J).2 .L .T = (false, (holdE engC1 .I .J).2) ∧
    (lockCurrentPieceE engC9 .S).1.state.canHold = true ∧
    (holdE (lockCurrentPieceE engC9 .S).1 .L .T).1 = true := by
  have h1 := C9_hold_once_per_spawn.1 engC1 .I .J (holdE engC1 .I .J).2 rfl
  have h2 := C9_hold_once_per_spawn.2.1 (holdE engC1 .I .J).2 .L .T h1
  have h3 := C9_hold_once_per_spawn.2.2 engC9 .S
    { createTetromino .J none with position := { x := 3, y := 17 } }
    rfl (by decide) (by decide)
  exact ⟨h1, h2, h3.1, h3.2 rfl .L .T⟩

end Tetris
